import Mathlib

/-!
Verification development for the go-dns message codec. The definitions
below are a shallow embedding of the Go sources: the cursor-based
512-byte packet buffer, the domain-name codec with compression
pointers, the header bit packing, and the question, record and
whole-packet readers and writers. Machine integers are modeled as Nat
with explicit reductions modulo 2 ^ 16 or 2 ^ 8 exactly where the Go
code converts between integer widths; inside ReadQName every position
update is bounded far below 2 ^ 16 by the 512-byte Get guard, so plain
Nat addition coincides with the uint16 addition of the source there.
-/

namespace GoDns

/-- Error outcomes of the codec. The Go code returns error values built
with errors.New or fmt.Errorf; each distinct error site gets one
constructor. panicSliceBounds models a Go runtime panic raised by an
out-of-bounds slice expression, which is not a returned error value.
fuelExhausted is an artifact of the fuel-based model of the ReadQName
loop and is proved unreachable. -/
inductive DnsErr where
  | endOfBuffer
  | tooManyJumps
  | labelTooLong
  | invalidIPv4
  | invalidIPv6
  | panicSliceBounds
  | fuelExhausted
  deriving DecidableEq

/-- BytePacketBuffer: a fixed 512 byte array plus a uint16 cursor. The
array is modeled as a function from index to byte value; only indices
below 512 are ever read, guarded exactly as in the source. -/
structure BytePacketBuffer where
  buf : Nat → Nat
  pos : Nat

/-- A concrete buffer whose first bytes are the given list, the rest
zero, cursor at 0 (as produced by NewBytePacketBuffer plus SetBuffer). -/
def bufOfList (l : List Nat) : BytePacketBuffer :=
  { buf := fun i => l.getD i 0, pos := 0 }

/-- Fresh all-zero buffer (NewBytePacketBuffer). -/
def freshBuffer : BytePacketBuffer := bufOfList []

/-- Get: bounded random access read, does not move the cursor. -/
def get (b : BytePacketBuffer) (pos : Nat) : Except DnsErr Nat :=
  if 512 ≤ pos then .error .endOfBuffer
  else .ok (b.buf pos)

/-- GetRange: the source computes start+len in uint16 arithmetic, fails
with the end-of-buffer error when that 16-bit sum reaches 512, and
otherwise evaluates the slice expression Buf[start : start+len], which
panics when the wrapped sum is below start. -/
def getRange (b : BytePacketBuffer) (start len : Nat) : Except DnsErr (List Nat) :=
  let high := (start + len) % 65536
  if 512 ≤ high then .error .endOfBuffer
  else if start ≤ high then
    .ok ((List.range (high - start)).map (fun i => b.buf (start + i)))
  else .error .panicSliceBounds

/-- Read: sequential read of one byte, advances the cursor. -/
def read (b : BytePacketBuffer) : Except DnsErr (Nat × BytePacketBuffer) :=
  if 512 ≤ b.pos then .error .endOfBuffer
  else .ok (b.buf b.pos, { b with pos := b.pos + 1 })

/-- Step: the source adds to the uint16 cursor with no bounds check and
unconditionally returns a nil error; modeled as a total function. -/
def step (b : BytePacketBuffer) (steps : Nat) : BytePacketBuffer :=
  { b with pos := (b.pos + steps) % 65536 }

/-- Seek: the source assigns the uint16 argument to the cursor with no
bounds check and unconditionally returns a nil error. -/
def seek (b : BytePacketBuffer) (pos : Nat) : BytePacketBuffer :=
  { b with pos := pos % 65536 }

/-- Set: unchecked store of one byte at an absolute position. The Go
code would panic for a position at or beyond 512; every call site in
the sources backpatches a position already bounds-checked by a
successful sequential write. -/
def setByte (b : BytePacketBuffer) (pos v : Nat) : BytePacketBuffer :=
  { b with buf := fun i => if i = pos then v else b.buf i }

/-- Set2Bytes: big-endian backpatch of a uint16 at an absolute position. -/
def set2Bytes (b : BytePacketBuffer) (pos v : Nat) : BytePacketBuffer :=
  setByte (setByte b pos ((v >>> 8) % 256)) (pos + 1) (v % 256)

/-- The unexported write: bounds-checked sequential store of one byte. -/
def writeByte (b : BytePacketBuffer) (v : Nat) : Except DnsErr BytePacketBuffer :=
  if 512 ≤ b.pos then .error .endOfBuffer
  else .ok { b with buf := fun i => if i = b.pos then v else b.buf i, pos := b.pos + 1 }

/-- Write1Byte: the parameter is a uint8 in the source, so the value is
reduced modulo 256 at the call boundary. -/
def write1Byte (b : BytePacketBuffer) (v : Nat) : Except DnsErr BytePacketBuffer :=
  writeByte b (v % 256)

/-- Write2Byte: big-endian uint16 write, two bounds-checked stores. -/
def write2Byte (b : BytePacketBuffer) (v : Nat) : Except DnsErr BytePacketBuffer :=
  match writeByte b ((v >>> 8) % 256) with
  | .error e => .error e
  | .ok b1 => writeByte b1 (v % 256)

/-- Write4Byte: big-endian uint32 write, four bounds-checked stores. -/
def write4Byte (b : BytePacketBuffer) (v : Nat) : Except DnsErr BytePacketBuffer :=
  match writeByte b ((v >>> 24) % 256) with
  | .error e => .error e
  | .ok b1 =>
    match writeByte b1 ((v >>> 16) % 256) with
    | .error e => .error e
    | .ok b2 =>
      match writeByte b2 ((v >>> 8) % 256) with
      | .error e => .error e
      | .ok b3 => writeByte b3 (v % 256)

/-- Read2Bytes: two sequential reads combined big-endian. -/
def read2Bytes (b : BytePacketBuffer) : Except DnsErr (Nat × BytePacketBuffer) :=
  match read b with
  | .error e => .error e
  | .ok (x, b1) =>
    match read b1 with
    | .error e => .error e
    | .ok (y, b2) => .ok ((x <<< 8) ||| y, b2)

/-- Read4Bytes: four sequential reads combined big-endian. -/
def read4Bytes (b : BytePacketBuffer) : Except DnsErr (Nat × BytePacketBuffer) :=
  match read b with
  | .error e => .error e
  | .ok (x1, b1) =>
    match read b1 with
    | .error e => .error e
    | .ok (x2, b2) =>
      match read b2 with
      | .error e => .error e
      | .ok (x3, b3) =>
        match read b3 with
        | .error e => .error e
        | .ok (x4, b4) => .ok ((x1 <<< 24) ||| (x2 <<< 16) ||| (x3 <<< 8) ||| x4, b4)

/-- strings.ToLower restricted to ASCII bytes: bytes 65..90 shift to
97..122, all others are kept. Every label this development evaluates is
plain ASCII, where Go ToLower agrees with this bytewise map. -/
def toLowerAscii (bs : List Nat) : List Nat :=
  bs.map (fun c => if 65 ≤ c ∧ c ≤ 90 then c + 32 else c)

/-- One pass of the ReadQName loop of the source, with an explicit fuel
parameter making the recursion structural. The local variables of the
Go loop are threaded as arguments: pos is the local read position, b
carries the real cursor which the first pointer jump seeks past the
pointer, jumps counts performed jumps against the limit of 5, delim and
acc accumulate the dotted name. The result pairs the returned name or
error with the final buffer state. -/
def readQNameAux (b : BytePacketBuffer) (pos : Nat) (jumped : Bool) (jumps : Nat)
    (delim acc : List Nat) : Nat → Except DnsErr (List Nat) × BytePacketBuffer
  | 0 => (.error .fuelExhausted, b)
  | fuel + 1 =>
    if 5 < jumps then (.error .tooManyJumps, b)
    else
      match get b pos with
      | .error e => (.error e, b)
      | .ok lenByte =>
        if lenByte &&& 192 = 192 then
          let b1 := if jumped then b else seek b (pos + 2)
          match get b1 (pos + 1) with
          | .error e => (.error e, b1)
          | .ok b2 =>
            readQNameAux b1 (((lenByte ^^^ 192) <<< 8) ||| b2) true (jumps + 1) delim acc fuel
        else
          if lenByte = 0 then
            (.ok acc, if jumped then b else seek b (pos + 1))
          else
            match getRange b (pos + 1) lenByte with
            | .error e => (.error e, b)
            | .ok bs =>
              readQNameAux b (pos + 1 + lenByte) jumped jumps [46]
                (acc ++ delim ++ toLowerAscii bs) fuel

/-- ReadQName. The fuel 8192 strictly dominates the loop measure: the
jump counter admits at most 6 jumps and between jumps the position
strictly increases below 512, which is proved below. -/
def readQName (b : BytePacketBuffer) : Except DnsErr (List Nat) × BytePacketBuffer :=
  readQNameAux b b.pos false 0 [] [] 8192

/-- strings.Split on the dot byte 46: splits around every dot and keeps
empty fragments; the empty string yields the single empty label, as in
Go. -/
def splitOnDot : List Nat → List (List Nat)
  | [] => [[]]
  | c :: rest =>
    if c = 46 then [] :: splitOnDot rest
    else
      match splitOnDot rest with
      | [] => [[c]]
      | l :: ls => (c :: l) :: ls

/-- The inner loop of WriteQName writing the raw bytes of one label. -/
def writeLabelBytes : BytePacketBuffer → List Nat → Except DnsErr BytePacketBuffer
  | b, [] => .ok b
  | b, c :: rest =>
    match write1Byte b c with
    | .error e => .error e
    | .ok b1 => writeLabelBytes b1 rest

/-- The label loop of WriteQName of the source: for each label, check
the 63-byte limit, write the length byte, write the label bytes, and
then write a zero byte. In the source the zero-byte write sits inside
the loop over labels, so one zero byte is emitted after every label,
not a single terminator after the final label. -/
def writeQNameLoop : BytePacketBuffer → List (List Nat) → Except DnsErr BytePacketBuffer
  | b, [] => .ok b
  | b, label :: rest =>
    if 63 < label.length then .error .labelTooLong
    else
      match write1Byte b label.length with
      | .error e => .error e
      | .ok b1 =>
        match writeLabelBytes b1 label with
        | .error e => .error e
        | .ok b2 =>
          match write1Byte b2 0 with
          | .error e => .error e
          | .ok b3 => writeQNameLoop b3 rest

/-- WriteQName: split the name on dots and run the label loop. -/
def writeQName (b : BytePacketBuffer) (qname : List Nat) : Except DnsErr BytePacketBuffer :=
  writeQNameLoop b (splitOnDot qname)

/-- Number of bytes the WriteQName of the source emits for a name when
it succeeds: one length byte, the label bytes and one zero byte per
label. -/
def wireLenLabels : List (List Nat) → Nat
  | [] => 0
  | l :: rest => 2 + l.length + wireLenLabels rest

/-- Emitted byte count of WriteQName on a whole dotted name. -/
def qnameWireLen (q : List Nat) : Nat :=
  wireLenLabels (splitOnDot q)

/-- The six response codes, in the iota order of the source. -/
inductive ResultCode where
  | NOERROR
  | FORMERR
  | SERVFAIL
  | NXDOMAIN
  | NOTIMP
  | REFUSED
  deriving DecidableEq

/-- The numeric value of a ResultCode, as produced by the uint8
conversion of the Go enum constant. -/
def resultCodeNum : ResultCode → Nat
  | .NOERROR => 0
  | .FORMERR => 1
  | .SERVFAIL => 2
  | .NXDOMAIN => 3
  | .NOTIMP => 4
  | .REFUSED => 5

/-- FromNum2ResultCode: the decode table, anything unknown is NOERROR. -/
def fromNum2ResultCode (num : Nat) : ResultCode :=
  if num = 1 then .FORMERR
  else if num = 2 then .SERVFAIL
  else if num = 3 then .NXDOMAIN
  else if num = 4 then .NOTIMP
  else if num = 5 then .REFUSED
  else .NOERROR

/-- The record types, in the iota order of the source. -/
inductive RecordType where
  | UNKNOWN
  | A
  | NS
  | CNAME
  | MX
  | AAAA
  deriving DecidableEq

/-- The Go ordinal of a RecordType, as produced by the uint16
conversion of the enum constant; this is what DnsQuestion.Write emits. -/
def recordTypeOrdinal : RecordType → Nat
  | .UNKNOWN => 0
  | .A => 1
  | .NS => 2
  | .CNAME => 3
  | .MX => 4
  | .AAAA => 5

/-- RecordTypeToNum: the on-wire numeric code of a record type. -/
def recordTypeToNum : RecordType → Nat
  | .A => 1
  | .NS => 2
  | .CNAME => 5
  | .MX => 15
  | .AAAA => 28
  | .UNKNOWN => 0

/-- FromNum2RecordType: decode table from on-wire code to type tag. -/
def fromNum2RecordType (num : Nat) : RecordType :=
  if num = 1 then .A
  else if num = 2 then .NS
  else if num = 5 then .CNAME
  else if num = 15 then .MX
  else if num = 28 then .AAAA
  else .UNKNOWN

/-- DnsHeader with the field layout of the source; booleans and small
integers as in Go, all defaults are the Go zero values. -/
structure DnsHeader where
  id : Nat := 0
  recursionDesired : Bool := false
  truncatedMessage : Bool := false
  authoritativeAnswer : Bool := false
  opcode : Nat := 0
  response : Bool := false
  rescode : ResultCode := .NOERROR
  checkingDisabled : Bool := false
  authedData : Bool := false
  z : Bool := false
  recursionAvailable : Bool := false
  questions : Nat := 0
  answers : Nat := 0
  authoritativeEntries : Nat := 0
  resourceEntries : Nat := 0
  deriving DecidableEq

/-- DnsHeader.Write of the source: id, first flag byte, then the four
counts. The source computes a second flag byte carrying rescode,
checkingDisabled, authedData, z and recursionAvailable but never
writes it: no Write1Byte call follows that computation, so the value
is dead and the emitted header is 11 bytes. -/
def dnsHeaderWrite (h : DnsHeader) (b : BytePacketBuffer) : Except DnsErr BytePacketBuffer :=
  match write2Byte b h.id with
  | .error e => .error e
  | .ok b1 =>
    let flag1 : Nat :=
      (if h.recursionDesired then 1 else 0) |||
      (if h.truncatedMessage then 2 else 0) |||
      (if h.authoritativeAnswer then 4 else 0) |||
      ((h.opcode <<< 3) % 256) |||
      (if h.response then 128 else 0)
    match write1Byte b1 flag1 with
    | .error e => .error e
    | .ok b2 =>
      let _flag2 : Nat :=
        resultCodeNum h.rescode |||
        (if h.checkingDisabled then 16 else 0) |||
        (if h.authedData then 32 else 0) |||
        (if h.z then 64 else 0) |||
        (if h.recursionAvailable then 128 else 0)
      match write2Byte b2 h.questions with
      | .error e => .error e
      | .ok b3 =>
        match write2Byte b3 h.answers with
        | .error e => .error e
        | .ok b4 =>
          match write2Byte b4 h.authoritativeEntries with
          | .error e => .error e
          | .ok b5 => write2Byte b5 h.resourceEntries

/-- DnsHeader.Read of the source: id, 16-bit flags word split into high
byte a and low byte c, then the four counts. Boolean fields test single
bits; the Go comparisons of the form (a AND bit) > 0 are written as
inequality with zero on Nat. -/
def dnsHeaderRead (b : BytePacketBuffer) : Except DnsErr (DnsHeader × BytePacketBuffer) :=
  match read2Bytes b with
  | .error e => .error e
  | .ok (idv, b1) =>
    match read2Bytes b1 with
    | .error e => .error e
    | .ok (flags, b2) =>
      let a := flags >>> 8
      let c := flags &&& 255
      match read2Bytes b2 with
      | .error e => .error e
      | .ok (qc, b3) =>
        match read2Bytes b3 with
        | .error e => .error e
        | .ok (anc, b4) =>
          match read2Bytes b4 with
          | .error e => .error e
          | .ok (auc, b5) =>
            match read2Bytes b5 with
            | .error e => .error e
            | .ok (rec, b6) =>
              .ok ({ id := idv
                   , recursionDesired := (a &&& 1) != 0
                   , truncatedMessage := (a &&& 2) != 0
                   , authoritativeAnswer := (a &&& 4) != 0
                   , opcode := (a >>> 3) &&& 15
                   , response := (a &&& 128) != 0
                   , rescode := fromNum2ResultCode (c &&& 15)
                   , checkingDisabled := (c &&& 16) != 0
                   , authedData := (c &&& 32) != 0
                   , z := (c &&& 64) != 0
                   , recursionAvailable := (c &&& 128) != 0
                   , questions := qc
                   , answers := anc
                   , authoritativeEntries := auc
                   , resourceEntries := rec }, b6)

/-- DnsQuestion: a name and a type tag. -/
structure DnsQuestion where
  name : List Nat := []
  type : RecordType := .UNKNOWN
  deriving DecidableEq

/-- DnsQuestion.Write of the source: name, then the uint16 conversion
of the type tag itself, that is the enum ordinal and not the
RecordTypeToNum on-wire code, then the class constant 1. -/
def dnsQuestionWrite (q : DnsQuestion) (b : BytePacketBuffer) : Except DnsErr BytePacketBuffer :=
  match writeQName b q.name with
  | .error e => .error e
  | .ok b1 =>
    match write2Byte b1 (recordTypeOrdinal q.type) with
    | .error e => .error e
    | .ok b2 => write2Byte b2 1

/-- DnsQuestion.Read of the source: name, type code through the decode
table, discarded class. -/
def dnsQuestionRead (b : BytePacketBuffer) : Except DnsErr (DnsQuestion × BytePacketBuffer) :=
  match readQName b with
  | (.error e, _) => .error e
  | (.ok name, b1) =>
    match read2Bytes b1 with
    | .error e => .error e
    | .ok (qt, b2) =>
      match read2Bytes b2 with
      | .error e => .error e
      | .ok (_, b3) => .ok ({ name := name, type := fromNum2RecordType qt }, b3)

/-- net.IPv4 of the Go standard library: the 16-byte v4-in-v6 form. -/
def ipv4Mapped (x1 x2 x3 x4 : Nat) : List Nat :=
  [0, 0, 0, 0, 0, 0, 0, 0, 0, 0, 255, 255, x1, x2, x3, x4]

/-- net.IP To4: a 4-byte address or the 4-byte tail of a v4-mapped
16-byte address, otherwise nil. -/
def ipTo4 (ip : List Nat) : Option (List Nat) :=
  if ip.length = 4 then some ip
  else if ip.length = 16 ∧ ip.take 12 = [0, 0, 0, 0, 0, 0, 0, 0, 0, 0, 255, 255] then
    some (ip.drop 12)
  else none

/-- net.IP To16: a 16-byte address as is, a 4-byte address v4-mapped,
otherwise nil. -/
def ipTo16 (ip : List Nat) : Option (List Nat) :=
  if ip.length = 16 then some ip
  else if ip.length = 4 then some ([0, 0, 0, 0, 0, 0, 0, 0, 0, 0, 255, 255] ++ ip)
  else none

/-- DnsRecord with the single-struct layout of the source; unused
fields keep their Go zero values. -/
structure DnsRecord where
  type : RecordType := .UNKNOWN
  domain : List Nat := []
  qtype : Nat := 0
  dataLen : Nat := 0
  ttl : Nat := 0
  addr : List Nat := []
  host : List Nat := []
  priority : Nat := 0
  deriving DecidableEq

/-- ReadDnsRecord of the source: name, type code, discarded class, TTL,
data length, then the per-type payload. -/
def readDnsRecord (b : BytePacketBuffer) : Except DnsErr (DnsRecord × BytePacketBuffer) :=
  match readQName b with
  | (.error e, _) => .error e
  | (.ok domain, b1) =>
    match read2Bytes b1 with
    | .error e => .error e
    | .ok (qtypeNum, b2) =>
      match read2Bytes b2 with
      | .error e => .error e
      | .ok (_, b3) =>
        match read4Bytes b3 with
        | .error e => .error e
        | .ok (ttl, b4) =>
          match read2Bytes b4 with
          | .error e => .error e
          | .ok (dataLen, b5) =>
            match fromNum2RecordType qtypeNum with
            | .A =>
              match read4Bytes b5 with
              | .error e => .error e
              | .ok (rawAddr, b6) =>
                .ok ({ type := .A, domain := domain, ttl := ttl
                     , addr := ipv4Mapped ((rawAddr >>> 24) &&& 255) ((rawAddr >>> 16) &&& 255)
                         ((rawAddr >>> 8) &&& 255) (rawAddr &&& 255) }, b6)
            | .AAAA =>
              match read4Bytes b5 with
              | .error e => .error e
              | .ok (r1, b6) =>
                match read4Bytes b6 with
                | .error e => .error e
                | .ok (r2, b7) =>
                  match read4Bytes b7 with
                  | .error e => .error e
                  | .ok (r3, b8) =>
                    match read4Bytes b8 with
                    | .error e => .error e
                    | .ok (r4, b9) =>
                      .ok ({ type := .AAAA, domain := domain, ttl := ttl
                           , addr :=
                               [ (r1 >>> 24) &&& 255, (r1 >>> 16) &&& 255
                               , (r1 >>> 8) &&& 255, r1 &&& 255
                               , (r2 >>> 24) &&& 255, (r2 >>> 16) &&& 255
                               , (r2 >>> 8) &&& 255, r2 &&& 255
                               , (r3 >>> 24) &&& 255, (r3 >>> 16) &&& 255
                               , (r3 >>> 8) &&& 255, r3 &&& 255
                               , (r4 >>> 24) &&& 255, (r4 >>> 16) &&& 255
                               , (r4 >>> 8) &&& 255, r4 &&& 255 ] }, b9)
            | .NS =>
              match readQName b5 with
              | (.error e, _) => .error e
              | (.ok ns, b6) =>
                .ok ({ type := .NS, domain := domain, host := ns, ttl := ttl }, b6)
            | .CNAME =>
              match readQName b5 with
              | (.error e, _) => .error e
              | (.ok cname, b6) =>
                .ok ({ type := .CNAME, domain := domain, host := cname, ttl := ttl }, b6)
            | .MX =>
              match read2Bytes b5 with
              | .error e => .error e
              | .ok (priority, b6) =>
                match readQName b6 with
                | (.error e, _) => .error e
                | (.ok mx, b7) =>
                  .ok ({ type := .MX, domain := domain, host := mx
                       , priority := priority, ttl := ttl }, b7)
            | .UNKNOWN =>
              let b6 := step b5 dataLen
              .ok ({ type := .UNKNOWN, domain := domain, qtype := qtypeNum
                   , dataLen := dataLen, ttl := ttl }, b6)

/-- The AAAA body loop of DnsRecord.Write, writing the 16 address bytes
as eight big-endian 16-bit segments. -/
def writeIPv6Segments : BytePacketBuffer → List Nat → Except DnsErr BytePacketBuffer
  | b, x :: y :: rest =>
    match write2Byte b ((x <<< 8) ||| y) with
    | .error e => .error e
    | .ok b1 => writeIPv6Segments b1 rest
  | b, _ => .ok b

/-- DnsRecord.Write of the source. Every case writes its own name,
type, class and TTL inside the type dispatch; the UNKNOWN case writes
nothing at all and only prints a diagnostic, so its returned byte count
is the cursor delta zero. The NS, CNAME, MX and AAAA cases write a
2-byte length placeholder, the body, and backpatch the placeholder
with the cursor delta. -/
def dnsRecordWrite (d : DnsRecord) (b : BytePacketBuffer) :
    Except DnsErr (Nat × BytePacketBuffer) :=
  let startPos := b.pos
  match d.type with
  | .A =>
    match writeQName b d.domain with
    | .error e => .error e
    | .ok b1 =>
      match write2Byte b1 (recordTypeToNum .A) with
      | .error e => .error e
      | .ok b2 =>
        match write2Byte b2 1 with
        | .error e => .error e
        | .ok b3 =>
          match write4Byte b3 d.ttl with
          | .error e => .error e
          | .ok b4 =>
            match write2Byte b4 4 with
            | .error e => .error e
            | .ok b5 =>
              match ipTo4 d.addr with
              | none => .error .invalidIPv4
              | some ip =>
                match write1Byte b5 (ip.getD 0 0) with
                | .error e => .error e
                | .ok b6 =>
                  match write1Byte b6 (ip.getD 1 0) with
                  | .error e => .error e
                  | .ok b7 =>
                    match write1Byte b7 (ip.getD 2 0) with
                    | .error e => .error e
                    | .ok b8 =>
                      match write1Byte b8 (ip.getD 3 0) with
                      | .error e => .error e
                      | .ok b9 => .ok (b9.pos - startPos, b9)
  | .NS =>
    match writeQName b d.domain with
    | .error e => .error e
    | .ok b1 =>
      match write2Byte b1 (recordTypeToNum .NS) with
      | .error e => .error e
      | .ok b2 =>
        match write2Byte b2 1 with
        | .error e => .error e
        | .ok b3 =>
          match write4Byte b3 d.ttl with
          | .error e => .error e
          | .ok b4 =>
            let p := b4.pos
            match write2Byte b4 0 with
            | .error e => .error e
            | .ok b5 =>
              match writeQName b5 d.host with
              | .error e => .error e
              | .ok b6 =>
                let size := b6.pos - (p + 2)
                let b7 := set2Bytes b6 p size
                .ok (b7.pos - startPos, b7)
  | .CNAME =>
    match writeQName b d.domain with
    | .error e => .error e
    | .ok b1 =>
      match write2Byte b1 (recordTypeToNum .CNAME) with
      | .error e => .error e
      | .ok b2 =>
        match write2Byte b2 1 with
        | .error e => .error e
        | .ok b3 =>
          match write4Byte b3 d.ttl with
          | .error e => .error e
          | .ok b4 =>
            let p := b4.pos
            match write2Byte b4 0 with
            | .error e => .error e
            | .ok b5 =>
              match writeQName b5 d.host with
              | .error e => .error e
              | .ok b6 =>
                let size := b6.pos - (p + 2)
                let b7 := set2Bytes b6 p size
                .ok (b7.pos - startPos, b7)
  | .MX =>
    match writeQName b d.domain with
    | .error e => .error e
    | .ok b1 =>
      match write2Byte b1 (recordTypeToNum .MX) with
      | .error e => .error e
      | .ok b2 =>
        match write2Byte b2 1 with
        | .error e => .error e
        | .ok b3 =>
          match write4Byte b3 d.ttl with
          | .error e => .error e
          | .ok b4 =>
            let p := b4.pos
            match write2Byte b4 0 with
            | .error e => .error e
            | .ok b5 =>
              match write2Byte b5 d.priority with
              | .error e => .error e
              | .ok b6 =>
                match writeQName b6 d.host with
                | .error e => .error e
                | .ok b7 =>
                  let size := b7.pos - (p + 2)
                  let b8 := set2Bytes b7 p size
                  .ok (b8.pos - startPos, b8)
  | .AAAA =>
    match writeQName b d.domain with
    | .error e => .error e
    | .ok b1 =>
      match write2Byte b1 (recordTypeToNum .AAAA) with
      | .error e => .error e
      | .ok b2 =>
        match write2Byte b2 1 with
        | .error e => .error e
        | .ok b3 =>
          match write4Byte b3 d.ttl with
          | .error e => .error e
          | .ok b4 =>
            let p := b4.pos
            match write2Byte b4 16 with
            | .error e => .error e
            | .ok b5 =>
              match ipTo16 d.addr with
              | none => .error .invalidIPv6
              | some ip =>
                match writeIPv6Segments b5 ip with
                | .error e => .error e
                | .ok b6 =>
                  let size := b6.pos - (p + 2)
                  let b7 := set2Bytes b6 p size
                  .ok (b7.pos - startPos, b7)
  | .UNKNOWN =>
    .ok (b.pos - startPos, b)

/-- DnsPacket: header plus the four entry lists. -/
structure DnsPacket where
  header : DnsHeader := {}
  questions : List DnsQuestion := []
  answers : List DnsRecord := []
  authorities : List DnsRecord := []
  resources : List DnsRecord := []
  deriving DecidableEq

/-- The question loop of DnsPacket.Write. -/
def writeQuestionList : BytePacketBuffer → List DnsQuestion → Except DnsErr BytePacketBuffer
  | b, [] => .ok b
  | b, q :: rest =>
    match dnsQuestionWrite q b with
    | .error e => .error e
    | .ok b1 => writeQuestionList b1 rest

/-- The record loops of DnsPacket.Write; the per-record byte count is
dropped exactly as in the source. -/
def writeRecordList : BytePacketBuffer → List DnsRecord → Except DnsErr BytePacketBuffer
  | b, [] => .ok b
  | b, r :: rest =>
    match dnsRecordWrite r b with
    | .error e => .error e
    | .ok (_, b1) => writeRecordList b1 rest

/-- DnsPacket.Write of the source: overwrite the header counts with the
uint16 lengths of the four lists, write the header, then each section
in order. -/
def dnsPacketWrite (d : DnsPacket) (b : BytePacketBuffer) : Except DnsErr BytePacketBuffer :=
  let hdr := { d.header with
                questions := d.questions.length % 65536
              , answers := d.answers.length % 65536
              , authoritativeEntries := d.authorities.length % 65536
              , resourceEntries := d.resources.length % 65536 }
  match dnsHeaderWrite hdr b with
  | .error e => .error e
  | .ok b1 =>
    match writeQuestionList b1 d.questions with
    | .error e => .error e
    | .ok b2 =>
      match writeRecordList b2 d.answers with
      | .error e => .error e
      | .ok b3 =>
        match writeRecordList b3 d.authorities with
        | .error e => .error e
        | .ok b4 => writeRecordList b4 d.resources

/-- The question section loop of FromBuffer2DnsPacket. -/
def readQuestionList : Nat → BytePacketBuffer → Except DnsErr (List DnsQuestion × BytePacketBuffer)
  | 0, b => .ok ([], b)
  | n + 1, b =>
    match dnsQuestionRead b with
    | .error e => .error e
    | .ok (q, b1) =>
      match readQuestionList n b1 with
      | .error e => .error e
      | .ok (qs, b2) => .ok (q :: qs, b2)

/-- One record section loop of FromBuffer2DnsPacket. -/
def readRecordList : Nat → BytePacketBuffer → Except DnsErr (List DnsRecord × BytePacketBuffer)
  | 0, b => .ok ([], b)
  | n + 1, b =>
    match readDnsRecord b with
    | .error e => .error e
    | .ok (r, b1) =>
      match readRecordList n b1 with
      | .error e => .error e
      | .ok (rs, b2) => .ok (r :: rs, b2)

/-- FromBuffer2DnsPacket of the source: header, then count-many
questions, answers, authorities and resources in that order. -/
def fromBuffer2DnsPacket (b : BytePacketBuffer) : Except DnsErr (DnsPacket × BytePacketBuffer) :=
  match dnsHeaderRead b with
  | .error e => .error e
  | .ok (h, b1) =>
    match readQuestionList h.questions b1 with
    | .error e => .error e
    | .ok (qs, b2) =>
      match readRecordList h.answers b2 with
      | .error e => .error e
      | .ok (ans, b3) =>
        match readRecordList h.authoritativeEntries b3 with
        | .error e => .error e
        | .ok (auth, b4) =>
          match readRecordList h.resourceEntries b4 with
          | .error e => .error e
          | .ok (res, b5) =>
            .ok ({ header := h, questions := qs, answers := ans
                 , authorities := auth, resources := res }, b5)

/-- ASCII byte list of a Lean string; all names in this development are
plain ASCII, where this agrees with the UTF-8 bytes of the Go string. -/
def asciiBytes (s : String) : List Nat :=
  s.toList.map (fun c => c.toNat)

/-- Boolean success test for an Except value. -/
def isOkE {e a : Type} : Except e a → Bool
  | .ok _ => true
  | .error _ => false

deriving instance DecidableEq for Except

/-- A buffer whose first two bytes are a compression pointer to offset
12, where the label sequence of www.google.com lies. -/
def wwwBuf : BytePacketBuffer :=
  bufOfList ([192, 12, 0, 0, 0, 0, 0, 0, 0, 0, 0, 0] ++
    [3, 119, 119, 119, 6, 103, 111, 111, 103, 108, 101, 3, 99, 111, 109, 0])

/-- A chain of five compression pointers ending at the one-label name
a; five jumps are within the limit. -/
def fiveJumpBuf : BytePacketBuffer :=
  bufOfList [192, 2, 192, 4, 192, 6, 192, 8, 192, 10, 1, 97, 0]

/-- A chain of six compression pointers; the sixth jump exceeds the
limit of 5. -/
def sixJumpBuf : BytePacketBuffer :=
  bufOfList [192, 2, 192, 4, 192, 6, 192, 8, 192, 10, 192, 12, 1, 97, 0]

/-- Two compression pointers pointing at each other. -/
def mutualBuf : BytePacketBuffer :=
  bufOfList [192, 2, 192, 0]

/-- A packet with empty sections and response code REFUSED; every field
is in its valid range. -/
def c1Pkt : DnsPacket := { header := { id := 7, rescode := .REFUSED } }

/-- The bytes DnsPacket.Write emits for c1Pkt, rewound to position 0. -/
def c1Enc : BytePacketBuffer :=
  match dnsPacketWrite c1Pkt freshBuffer with
  | .ok b => { b with pos := 0 }
  | .error _ => freshBuffer

/-- The packet FromBuffer2DnsPacket decodes from those bytes. -/
def c1Dec : DnsPacket :=
  match fromBuffer2DnsPacket c1Enc with
  | .ok (p, _) => p
  | .error _ => {}

/-- A header exercising the second flag byte: response code REFUSED and
recursion-available set. -/
def c2H : DnsHeader := { id := 1, rescode := .REFUSED, recursionAvailable := true }

/-- The bytes DnsHeader.Write emits for c2H. -/
def c2Enc : BytePacketBuffer :=
  match dnsHeaderWrite c2H freshBuffer with
  | .ok b => b
  | .error _ => freshBuffer

/-- The header DnsHeader.Read decodes from those bytes. -/
def c2Dec : DnsHeader :=
  match dnsHeaderRead { c2Enc with pos := 0 } with
  | .ok (h, _) => h
  | .error _ => {}

/-- The buffer WriteQName produces for the name google.com. -/
def c3Out : BytePacketBuffer :=
  match writeQName freshBuffer (asciiBytes "google.com") with
  | .ok b => b
  | .error _ => freshBuffer

/-- A CNAME question for the name a. -/
def c6Q : DnsQuestion := { name := asciiBytes "a", type := .CNAME }

/-- The buffer DnsQuestion.Write produces for c6Q. -/
def c6Out : BytePacketBuffer :=
  match dnsQuestionWrite c6Q freshBuffer with
  | .ok b => b
  | .error _ => freshBuffer

/-- An Unknown-type record with a nonempty domain, raw type code and
data length. -/
def c7Rec : DnsRecord :=
  { type := .UNKNOWN, domain := asciiBytes "abc", qtype := 99, dataLen := 7, ttl := 3 }

/-- An NS record with domain a and target host ab. -/
def c9Rec : DnsRecord :=
  { type := .NS, domain := asciiBytes "a", host := asciiBytes "ab", ttl := 0 }

/-- The byte count and buffer DnsRecord.Write produces for c9Rec. -/
def c9Res : Nat × BytePacketBuffer :=
  match dnsRecordWrite c9Rec freshBuffer with
  | .ok r => r
  | .error _ => (0, freshBuffer)

end GoDns

namespace GoDns

/-! Helper lemmas about the sequential writers: cursor tracking. -/

theorem writeByte_pos {b b2 : BytePacketBuffer} {v : Nat}
    (h : writeByte b v = .ok b2) : b2.pos = b.pos + 1 ∧ b2.pos ≤ 512 := by
  unfold writeByte at h
  split at h
  · exact absurd h (by simp)
  · rename_i hlt
    injection h with h
    subst h
    exact ⟨rfl, by show b.pos + 1 ≤ 512; omega⟩

theorem write1Byte_pos {b b2 : BytePacketBuffer} {v : Nat}
    (h : write1Byte b v = .ok b2) : b2.pos = b.pos + 1 ∧ b2.pos ≤ 512 :=
  writeByte_pos h

theorem write2Byte_pos {b b2 : BytePacketBuffer} {v : Nat}
    (h : write2Byte b v = .ok b2) : b2.pos = b.pos + 2 ∧ b2.pos ≤ 512 := by
  unfold write2Byte at h
  split at h
  · exact absurd h (by simp)
  · rename_i b1 heq
    obtain ⟨h1, _⟩ := writeByte_pos heq
    obtain ⟨h2, h3⟩ := writeByte_pos h
    omega

theorem write4Byte_pos {b b2 : BytePacketBuffer} {v : Nat}
    (h : write4Byte b v = .ok b2) : b2.pos = b.pos + 4 ∧ b2.pos ≤ 512 := by
  unfold write4Byte at h
  split at h
  · exact absurd h (by simp)
  · rename_i c1 heq1
    split at h
    · exact absurd h (by simp)
    · rename_i c2 heq2
      split at h
      · exact absurd h (by simp)
      · rename_i c3 heq3
        obtain ⟨e1, _⟩ := writeByte_pos heq1
        obtain ⟨e2, _⟩ := writeByte_pos heq2
        obtain ⟨e3, _⟩ := writeByte_pos heq3
        obtain ⟨e4, e5⟩ := writeByte_pos h
        omega

theorem writeLabelBytes_pos {l : List Nat} :
    ∀ {b b2 : BytePacketBuffer}, writeLabelBytes b l = .ok b2 →
      b2.pos = b.pos + l.length := by
  induction l with
  | nil =>
    intro b b2 h
    unfold writeLabelBytes at h
    injection h with h
    subst h
    simp
  | cons c rest ih =>
    intro b b2 h
    unfold writeLabelBytes at h
    split at h
    · exact absurd h (by simp)
    · rename_i b1 heq
      obtain ⟨h1, _⟩ := write1Byte_pos heq
      have h2 := ih h
      simp only [List.length_cons]
      omega

theorem writeQNameLoop_pos {ls : List (List Nat)} :
    ∀ {b b2 : BytePacketBuffer}, writeQNameLoop b ls = .ok b2 →
      b2.pos = b.pos + wireLenLabels ls ∧ (b2.pos ≤ 512 ∨ ls = []) := by
  induction ls with
  | nil =>
    intro b b2 h
    unfold writeQNameLoop at h
    injection h with h
    subst h
    exact ⟨by simp [wireLenLabels], Or.inr rfl⟩
  | cons l rest ih =>
    intro b b2 h
    unfold writeQNameLoop at h
    split at h
    · exact absurd h (by simp)
    · split at h
      · exact absurd h (by simp)
      · rename_i b1 heq1
        split at h
        · exact absurd h (by simp)
        · rename_i bl heq2
          split at h
          · exact absurd h (by simp)
          · rename_i b3 heq3
            obtain ⟨e1, _⟩ := write1Byte_pos heq1
            have e2 := writeLabelBytes_pos heq2
            obtain ⟨e3, e3b⟩ := write1Byte_pos heq3
            obtain ⟨e4, e5⟩ := ih h
            refine ⟨by simp only [wireLenLabels]; omega, Or.inl ?_⟩
            rcases e5 with h5 | h5
            · exact h5
            · subst h5
              simp only [wireLenLabels] at e4
              omega

theorem splitOnDot_ne_nil (q : List Nat) : splitOnDot q ≠ [] := by
  induction q with
  | nil => simp [splitOnDot]
  | cons c rest ih =>
    unfold splitOnDot
    split
    · simp
    · split
      · simp
      · simp

theorem writeQName_pos {q : List Nat} {b b2 : BytePacketBuffer}
    (h : writeQName b q = .ok b2) :
    b2.pos = b.pos + qnameWireLen q ∧ b2.pos ≤ 512 := by
  unfold writeQName at h
  obtain ⟨h1, h2⟩ := writeQNameLoop_pos h
  refine ⟨h1, ?_⟩
  rcases h2 with h2 | h2
  · exact h2
  · exact absurd h2 (splitOnDot_ne_nil q)

/-- The ReadQName loop never exhausts a fuel budget strictly above its
loop measure: each pointer jump raises the jump counter, which the
guard caps at 6 passes, and each label strictly advances the read
position, which the Get guard caps at 512, so the measure
(6 - jumps) * 1000 + (512 - pos) strictly decreases on every
iteration. -/
theorem readQNameAux_no_fuel (fuel : Nat) :
    ∀ (b : BytePacketBuffer) (pos : Nat) (jumped : Bool) (jumps : Nat)
      (delim acc : List Nat),
      (6 - jumps) * 1000 + (512 - pos) < fuel →
      (readQNameAux b pos jumped jumps delim acc fuel).1 ≠ .error .fuelExhausted := by
  induction fuel with
  | zero =>
    intro b pos jumped jumps delim acc hm
    omega
  | succ fuel ih =>
    intro b pos jumped jumps delim acc hm
    simp only [readQNameAux]
    by_cases hj : 5 < jumps
    · rw [if_pos hj]
      simp
    · rw [if_neg hj]
      by_cases hp : 512 ≤ pos
      · simp only [get, if_pos hp]
        simp
      · simp only [get, if_neg hp]
        by_cases hptr : b.buf pos &&& 192 = 192
        · rw [if_pos hptr]
          by_cases hp1 : 512 ≤ pos + 1
          · simp only [get, if_pos hp1]
            simp
          · simp only [get, if_neg hp1]
            apply ih
            omega
        · rw [if_neg hptr]
          by_cases hz : b.buf pos = 0
          · rw [if_pos hz]
            simp
          · rw [if_neg hz]
            simp only [getRange]
            by_cases hc1 : 512 ≤ (pos + 1 + b.buf pos) % 65536
            · rw [if_pos hc1]
              simp
            · rw [if_neg hc1]
              by_cases hc2 : pos + 1 ≤ (pos + 1 + b.buf pos) % 65536
              · rw [if_pos hc2]
                apply ih
                omega
              · rw [if_neg hc2]
                simp

/-- C5. ReadQName terminates on every input buffer: with the fuel 8192,
which strictly dominates the loop measure, the fuel never runs out; a
chain of five pointer jumps stays within the limit and decodes to the
name behind the chain with the cursor two bytes past the first
pointer; a chain of six jumps, and in particular two pointers pointing
at each other, fails with the too-many-jumps error instead of looping. -/
theorem claim_C5_jump_guard :
    (∀ b : BytePacketBuffer, (readQName b).1 ≠ .error .fuelExhausted) ∧
    (readQName fiveJumpBuf).1 = .ok (asciiBytes "a") ∧
    (readQName fiveJumpBuf).2.pos = 2 ∧
    (readQName sixJumpBuf).1 = .error .tooManyJumps ∧
    (readQName mutualBuf).1 = .error .tooManyJumps := by
  refine ⟨?_, by decide, by decide, by decide, by decide⟩
  intro b
  exact readQNameAux_no_fuel 8192 b b.pos false 0 [] [] (by omega)

/-- C1. The claim states that decoding the bytes produced by encoding
any message with in-range fields yields the message back, names
compared case-insensitively. Evaluation of the code at the packet
c1Pkt, whose fields are all in valid ranges, refutes this: encoding
succeeds, decoding the encoded bytes succeeds, but the decoded packet
differs from the original because DnsHeader.Write never emits the
second flag byte, so the response code REFUSED decodes as NOERROR. -/
theorem claim_C1_roundtrip_eval :
    isOkE (dnsPacketWrite c1Pkt freshBuffer) = true ∧
    isOkE (fromBuffer2DnsPacket c1Enc) = true ∧
    c1Dec.header.rescode = .NOERROR ∧
    c1Pkt.header.rescode = .REFUSED ∧
    c1Dec ≠ c1Pkt := by
  decide

/-- C2. The claim states that DnsHeader.Write emits a 12-byte header
whose byte 3 carries RA, Z, AD, CD and RCODE, and that DnsHeader.Read
recovers the written fields. Evaluation at the header c2H refutes
this: the write succeeds but emits 11 bytes, because the computed
second flag byte is never written, and reading the written bytes back
loses the response code and the recursion-available flag. -/
theorem claim_C2_header_eval :
    isOkE (dnsHeaderWrite c2H freshBuffer) = true ∧
    c2Enc.pos = 11 ∧
    isOkE (dnsHeaderRead { c2Enc with pos := 0 }) = true ∧
    c2Dec.rescode = .NOERROR ∧
    c2Dec.recursionAvailable = false ∧
    c2H.rescode = .REFUSED ∧
    c2H.recursionAvailable = true := by
  decide

/-- C3. The claim states that WriteQName emits one length byte plus
the raw bytes per label and a single zero terminator after the final
label. Evaluation at the name google.com refutes the single-terminator
part: the code emits a zero byte after every label, producing 13 bytes
with a zero at offset 7 in the middle of the name, where a single
terminator would produce 12 bytes with the only zero at the end. -/
theorem claim_C3_writeQName_eval :
    isOkE (writeQName freshBuffer (asciiBytes "google.com")) = true ∧
    c3Out.pos = 13 ∧
    (List.range 13).map c3Out.buf =
      [6, 103, 111, 111, 103, 108, 101, 0, 3, 99, 111, 109, 0] ∧
    c3Out.buf 7 = 0 := by
  decide

/-- C6. The claim states that DnsQuestion.Write emits the on-wire type
code (A=1, NS=2, CNAME=5, MX=15, AAAA=28) followed by class 1.
Evaluation at a CNAME question refutes this: the code emits the enum
ordinal of the type tag, 3 for CNAME instead of 5, and likewise 4
instead of 15 for MX and 5 instead of 28 for AAAA; the emitted code 3
even decodes back to UNKNOWN through the decode table of the source. -/
theorem claim_C6_question_type_eval :
    isOkE (dnsQuestionWrite c6Q freshBuffer) = true ∧
    (List.range 7).map c6Out.buf = [1, 97, 0, 0, 3, 0, 1] ∧
    recordTypeToNum .CNAME = 5 ∧ recordTypeOrdinal .CNAME = 3 ∧
    recordTypeOrdinal .MX = 4 ∧ recordTypeToNum .MX = 15 ∧
    recordTypeOrdinal .AAAA = 5 ∧ recordTypeToNum .AAAA = 28 ∧
    fromNum2RecordType 3 = .UNKNOWN := by
  decide

/-- C7, counterexample. The claim states that writing an Unknown-type
record emits no record body but returns the byte count of the name,
type, class and TTL fields written before the dispatch. At the record
c7Rec with domain abc that count would be 13, yet the write returns 0
and leaves the buffer untouched: in this source all field writes sit
inside the per-type dispatch and the UNKNOWN arm writes nothing. -/
theorem claim_C7_counterexample :
    dnsRecordWrite c7Rec freshBuffer = .ok (0, freshBuffer) ∧
    qnameWireLen (asciiBytes "abc") + 8 = 13 ∧ (0 : Nat) ≠ 13 := by
  exact ⟨rfl, by decide, by decide⟩

/-- C7, amended. When DnsRecord.Write is called on a record of Unknown
type it writes nothing at all, not even the name, type, class or TTL
fields, leaves the buffer unchanged and returns the byte count 0. -/
theorem claim_C7_unknown_write (d : DnsRecord) (b : BytePacketBuffer)
    (h : d.type = .UNKNOWN) : dnsRecordWrite d b = .ok (0, b) := by
  unfold dnsRecordWrite
  rw [h]
  simp

/-- C7, witness instantiating the amended theorem at c7Rec. -/
theorem claim_C7_witness : dnsRecordWrite c7Rec freshBuffer = .ok (0, freshBuffer) :=
  claim_C7_unknown_write c7Rec freshBuffer rfl

/-- C8, counterexample. The claim states that GetRange fails with the
end-of-buffer error whenever start plus len reaches or exceeds 512.
At start 65535 and len 1 the sum 65536 exceeds 512, but the source
computes the sum in uint16 arithmetic: it wraps to 0, passes the bound
check, and the slice expression Buf[65535:0] panics instead of
returning the error. -/
theorem claim_C8_counterexample :
    512 ≤ 65535 + 1 ∧
    getRange freshBuffer 65535 1 ≠ .error .endOfBuffer ∧
    getRange freshBuffer 65535 1 = .error .panicSliceBounds := by
  decide

/-- C8, amended. Get at a position and a sequential Read at a cursor
position succeed up to 511 and fail with the end-of-buffer error from
512 on; GetRange fails with that error whenever start plus len reaches
or exceeds 512 without overflowing 16 bits, in particular at start 510
and len 3, and returns the len bytes starting at start whenever the
sum stays below 512; when the sum overflows 16 bits the wrapped sum is
what the bound check sees and the slice panics instead of returning
the error; Get and GetRange never move the cursor, which their types
reflect since they return no buffer. -/
theorem claim_C8_bounds (b : BytePacketBuffer) (pos start len : Nat) :
    (pos ≤ 511 → get b pos = .ok (b.buf pos)) ∧
    (512 ≤ pos → get b pos = .error .endOfBuffer) ∧
    (b.pos ≤ 511 → read b = .ok (b.buf b.pos, { b with pos := b.pos + 1 })) ∧
    (512 ≤ b.pos → read b = .error .endOfBuffer) ∧
    (512 ≤ start + len → start + len ≤ 65535 → getRange b start len = .error .endOfBuffer) ∧
    (start + len ≤ 511 →
      getRange b start len = .ok ((List.range len).map (fun i => b.buf (start + i)))) ∧
    getRange b 510 3 = .error .endOfBuffer := by
  refine ⟨?_, ?_, ?_, ?_, ?_, ?_, ?_⟩
  · intro h
    unfold get
    rw [if_neg (by omega)]
  · intro h
    unfold get
    rw [if_pos h]
  · intro h
    unfold read
    rw [if_neg (by omega)]
  · intro h
    unfold read
    rw [if_pos h]
  · intro h1 h2
    simp only [getRange]
    rw [Nat.mod_eq_of_lt (by omega), if_pos h1]
  · intro h
    simp only [getRange]
    rw [Nat.mod_eq_of_lt (by omega), if_neg (by omega), if_pos (by omega),
      Nat.add_sub_cancel_left]
  · rfl

/-- C8, witness instantiating the amended theorem at the boundary
positions 511, 512, at GetRange arguments 510 and 3, and at an
in-range GetRange read. -/
theorem claim_C8_witness :
    get freshBuffer 511 = .ok 0 ∧
    get freshBuffer 512 = .error .endOfBuffer ∧
    read freshBuffer = .ok (0, { freshBuffer with pos := 1 }) ∧
    getRange freshBuffer 510 3 = .error .endOfBuffer ∧
    getRange freshBuffer 100 5 = .ok [0, 0, 0, 0, 0] := by
  exact ⟨(claim_C8_bounds freshBuffer 511 0 0).1 (by decide),
         (claim_C8_bounds freshBuffer 512 0 0).2.1 (by decide),
         (claim_C8_bounds freshBuffer 0 0 0).2.2.1 (by decide),
         (claim_C8_bounds freshBuffer 0 510 3).2.2.2.2.2.2,
         (claim_C8_bounds freshBuffer 0 100 5).2.2.2.2.2.1 (by decide)⟩

/-- C10. Seek and Step perform no bounds check and always succeed:
Step adds to the cursor modulo 2 ^ 16, Seek sets the cursor to its
argument exactly, either can place the cursor at or beyond 512 or wrap
it back below 512, neither touches the stored bytes, and an
out-of-range cursor surfaces only as the end-of-buffer error of a
subsequent Read, Get or sequential write. -/
theorem claim_C10_seek_step (b : BytePacketBuffer) (n p v : Nat)
    (_hn : n < 65536) (hp : p < 65536) :
    step b n = { b with pos := (b.pos + n) % 65536 } ∧
    seek b p = { b with pos := p } ∧
    (step b n).buf = b.buf ∧
    (seek b p).buf = b.buf ∧
    (512 ≤ p → read { b with pos := p } = .error .endOfBuffer ∧
      get b p = .error .endOfBuffer ∧
      writeByte { b with pos := p } v = .error .endOfBuffer) := by
  refine ⟨rfl, ?_, rfl, rfl, ?_⟩
  · unfold seek
    rw [Nat.mod_eq_of_lt hp]
  · intro h
    refine ⟨?_, ?_, ?_⟩
    · unfold read
      rw [if_pos (show 512 ≤ ({ b with pos := p } : BytePacketBuffer).pos from h)]
    · unfold get
      rw [if_pos h]
    · unfold writeByte
      rw [if_pos (show 512 ≤ ({ b with pos := p } : BytePacketBuffer).pos from h)]

/-- C10, witness: stepping a cursor at 65000 by 1000 wraps it to 464,
seeking to 600 places the cursor beyond the 512-byte bound without an
error, and Read, Get and the sequential write all fail there. -/
theorem claim_C10_witness :
    step (seek freshBuffer 65000) 1000 = { seek freshBuffer 65000 with pos := 464 } ∧
    seek freshBuffer 600 = { freshBuffer with pos := 600 } ∧
    read { freshBuffer with pos := 600 } = .error .endOfBuffer ∧
    get freshBuffer 600 = .error .endOfBuffer ∧
    writeByte { freshBuffer with pos := 600 } 7 = .error .endOfBuffer := by
  obtain ⟨h1, _, _, _, _⟩ :=
    claim_C10_seek_step (seek freshBuffer 65000) 1000 600 7 (by decide) (by decide)
  obtain ⟨_, g2, _, _, g5⟩ :=
    claim_C10_seek_step freshBuffer 1000 600 7 (by decide) (by decide)
  obtain ⟨r1, r2, r3⟩ := g5 (by decide)
  exact ⟨h1, g2, r1, r2, r3⟩

/-! Step lemmas for symbolic execution of the ReadQName loop. -/

/-- One pointer-jump pass of the ReadQName loop: on a not-yet-jumped
state the real cursor seeks two bytes past the pointer and decoding
resumes at the 14-bit offset with the jump counter raised. -/
theorem readQNameAux_jump (f : Nat) (b : BytePacketBuffer) (pos jumps : Nat)
    (delim acc : List Nat)
    (hj : ¬ 5 < jumps) (hpos : pos + 1 < 512)
    (hptr : b.buf pos &&& 192 = 192) :
    readQNameAux b pos false jumps delim acc (f + 1) =
      readQNameAux (seek b (pos + 2)) (((b.buf pos ^^^ 192) <<< 8) ||| b.buf (pos + 1))
        true (jumps + 1) delim acc f := by
  simp only [readQNameAux]
  rw [if_neg hj]
  simp only [get, if_neg (show ¬ 512 ≤ pos by omega)]
  rw [if_pos hptr]
  simp only [Bool.false_eq_true, if_false, seek]
  rw [if_neg (show ¬ 512 ≤ pos + 1 by omega)]

/-- One label pass of the ReadQName loop: a nonzero non-pointer length
byte appends the lowercased label bytes behind the current delimiter
and advances past the label. -/
theorem readQNameAux_label (f : Nat) (b : BytePacketBuffer) (pos len : Nat)
    (jumped : Bool) (jumps : Nat) (delim acc bs : List Nat)
    (hj : ¬ 5 < jumps) (hpos : pos < 512)
    (hlen : b.buf pos = len) (hl1 : 1 ≤ len) (hl2 : len < 192)
    (hbound : pos + 1 + len < 512)
    (hbytes : (List.range len).map (fun i => b.buf (pos + 1 + i)) = bs) :
    readQNameAux b pos jumped jumps delim acc (f + 1) =
      readQNameAux b (pos + 1 + len) jumped jumps [46]
        (acc ++ delim ++ toLowerAscii bs) f := by
  simp only [readQNameAux]
  rw [if_neg hj]
  simp only [get, if_neg (show ¬ 512 ≤ pos by omega)]
  rw [hlen]
  rw [if_neg (show ¬ len &&& 192 = 192 by
    intro hc
    have : len &&& 192 ≤ len := Nat.and_le_left
    omega)]
  rw [if_neg (show ¬ len = 0 by omega)]
  simp only [getRange]
  rw [Nat.mod_eq_of_lt (show pos + 1 + len < 65536 by omega)]
  rw [if_neg (show ¬ 512 ≤ pos + 1 + len by omega)]
  rw [if_pos (show pos + 1 ≤ pos + 1 + len by omega)]
  rw [Nat.add_sub_cancel_left, hbytes]

/-- The terminating pass of the ReadQName loop on a jumped state: a
zero length byte returns the accumulated name and keeps the cursor
where the first jump left it. -/
theorem readQNameAux_term (f : Nat) (b : BytePacketBuffer) (pos jumps : Nat)
    (delim acc : List Nat)
    (hj : ¬ 5 < jumps) (hpos : pos < 512)
    (hz : b.buf pos = 0) :
    readQNameAux b pos true jumps delim acc (f + 1) = (.ok acc, b) := by
  simp only [readQNameAux]
  rw [if_neg hj]
  simp only [get, if_neg (show ¬ 512 ≤ pos by omega)]
  rw [hz]
  rw [if_neg (show ¬ (0 : Nat) &&& 192 = 192 by decide)]
  rw [if_pos rfl]
  simp

/-- C4. For every buffer whose bytes at the cursor form a compression
pointer whose 14-bit offset X holds the label sequence of
www.google.com in range, ReadQName returns the name www.google.com and
leaves the cursor exactly two bytes past the pointer. -/
theorem claim_C4_pointer_decode (b : BytePacketBuffer) (X : Nat)
    (hpos : b.pos + 1 < 512)
    (hptr : b.buf b.pos &&& 192 = 192)
    (hoff : ((b.buf b.pos ^^^ 192) <<< 8) ||| b.buf (b.pos + 1) = X)
    (hX : X + 16 ≤ 512)
    (hseq : b.buf X = 3 ∧ b.buf (X + 1) = 119 ∧ b.buf (X + 2) = 119 ∧
      b.buf (X + 3) = 119 ∧ b.buf (X + 4) = 6 ∧ b.buf (X + 5) = 103 ∧
      b.buf (X + 6) = 111 ∧ b.buf (X + 7) = 111 ∧ b.buf (X + 8) = 103 ∧
      b.buf (X + 9) = 108 ∧ b.buf (X + 10) = 101 ∧ b.buf (X + 11) = 3 ∧
      b.buf (X + 12) = 99 ∧ b.buf (X + 13) = 111 ∧ b.buf (X + 14) = 109 ∧
      b.buf (X + 15) = 0) :
    readQName b = (.ok (asciiBytes "www.google.com"), { b with pos := b.pos + 2 }) := by
  obtain ⟨h0, h1, h2, h3, h4, h5, h6, h7, h8, h9, h10, h11, h12, h13, h14, h15⟩ := hseq
  unfold readQName
  rw [show (8192 : Nat) = 8191 + 1 from rfl,
      readQNameAux_jump 8191 b b.pos 0 [] [] (by omega) hpos hptr]
  rw [hoff]
  rw [show (8191 : Nat) = 8190 + 1 from rfl,
      readQNameAux_label 8190 (seek b (b.pos + 2)) X 3 true 1 [] [] [119, 119, 119]
        (by omega) (by omega) h0 (by omega) (by omega) (by omega)
        (by
          show (List.range 3).map (fun i => b.buf (X + 1 + i)) = [119, 119, 119]
          rw [show List.range 3 = [0, 1, 2] from rfl]
          simp only [List.map_cons, List.map_nil]
          rw [show X + 1 + 0 = X + 1 from rfl, show X + 1 + 1 = X + 2 from rfl,
              show X + 1 + 2 = X + 3 from rfl, h1, h2, h3])]
  rw [show X + 1 + 3 = X + 4 from rfl]
  rw [show (8190 : Nat) = 8189 + 1 from rfl,
      readQNameAux_label 8189 (seek b (b.pos + 2)) (X + 4) 6 true 1 [46] _
        [103, 111, 111, 103, 108, 101]
        (by omega) (by omega) h4 (by omega) (by omega) (by omega)
        (by
          show (List.range 6).map (fun i => b.buf (X + 4 + 1 + i)) =
            [103, 111, 111, 103, 108, 101]
          rw [show List.range 6 = [0, 1, 2, 3, 4, 5] from rfl]
          simp only [List.map_cons, List.map_nil]
          rw [show X + 4 + 1 + 0 = X + 5 from rfl, show X + 4 + 1 + 1 = X + 6 from rfl,
              show X + 4 + 1 + 2 = X + 7 from rfl, show X + 4 + 1 + 3 = X + 8 from rfl,
              show X + 4 + 1 + 4 = X + 9 from rfl, show X + 4 + 1 + 5 = X + 10 from rfl,
              h5, h6, h7, h8, h9, h10])]
  rw [show X + 4 + 1 + 6 = X + 11 from rfl]
  rw [show (8189 : Nat) = 8188 + 1 from rfl,
      readQNameAux_label 8188 (seek b (b.pos + 2)) (X + 11) 3 true 1 [46] _
        [99, 111, 109]
        (by omega) (by omega) h11 (by omega) (by omega) (by omega)
        (by
          show (List.range 3).map (fun i => b.buf (X + 11 + 1 + i)) = [99, 111, 109]
          rw [show List.range 3 = [0, 1, 2] from rfl]
          simp only [List.map_cons, List.map_nil]
          rw [show X + 11 + 1 + 0 = X + 12 from rfl, show X + 11 + 1 + 1 = X + 13 from rfl,
              show X + 11 + 1 + 2 = X + 14 from rfl, h12, h13, h14])]
  rw [show X + 11 + 1 + 3 = X + 15 from rfl]
  rw [show (8188 : Nat) = 8187 + 1 from rfl,
      readQNameAux_term 8187 (seek b (b.pos + 2)) (X + 15) 1 [46] _
        (by omega) (by omega) h15]
  have hmod : (b.pos + 2) % 65536 = b.pos + 2 := Nat.mod_eq_of_lt (by omega)
  simp only [seek, hmod]
  rfl

/-- C4, witness instantiating the pointer-decode theorem on a concrete
buffer whose pointer at position 0 targets offset 12. -/
theorem claim_C4_witness :
    readQName wwwBuf = (.ok (asciiBytes "www.google.com"),
      { wwwBuf with pos := wwwBuf.pos + 2 }) :=
  claim_C4_pointer_decode wwwBuf 12 (by decide) (by decide) (by decide) (by decide)
    (by decide)

/-- The NS arm of DnsRecord.Write backpatches the placeholder, which
sits 8 bytes past the encoded owner name, with exactly the cursor
delta of the host-name write. -/
theorem dnsRecordWrite_ns_backpatch (dom host : List Nat) (ttl : Nat)
    (b : BytePacketBuffer) (n : Nat) (b2 : BytePacketBuffer)
    (h : dnsRecordWrite { type := .NS, domain := dom, host := host, ttl := ttl } b
      = .ok (n, b2)) :
    b2.buf (b.pos + qnameWireLen dom + 8) * 256 +
      b2.buf (b.pos + qnameWireLen dom + 8 + 1) = qnameWireLen host := by
  simp only [dnsRecordWrite] at h
  split at h
  · exact Except.noConfusion h
  next b1 hq1 =>
  split at h
  · exact Except.noConfusion h
  next c2 hw2 =>
  split at h
  · exact Except.noConfusion h
  next c3 hw3 =>
  split at h
  · exact Except.noConfusion h
  next c4 hw4 =>
  split at h
  · exact Except.noConfusion h
  next c5 hw5 =>
  split at h
  · exact Except.noConfusion h
  next c6 hq2 =>
  injection h with hpair
  injection hpair with hn hb2
  obtain ⟨e1, _⟩ := writeQName_pos hq1
  obtain ⟨e2, _⟩ := write2Byte_pos hw2
  obtain ⟨e3, _⟩ := write2Byte_pos hw3
  obtain ⟨e4, _⟩ := write4Byte_pos hw4
  obtain ⟨e5, _⟩ := write2Byte_pos hw5
  obtain ⟨e6, e6b⟩ := writeQName_pos hq2
  subst hb2
  have hp : b.pos + qnameWireLen dom + 8 = c4.pos := by omega
  rw [hp]
  simp only [set2Bytes, setByte]
  simp only [if_true]
  have hsz : c6.pos - (c4.pos + 2) = qnameWireLen host := by omega
  rw [hsz.symm]
  rw [Nat.shiftRight_eq_div_pow]
  norm_num
  omega

/-- The CNAME arm of DnsRecord.Write backpatches its placeholder the
same way as the NS arm. -/
theorem dnsRecordWrite_cname_backpatch (dom host : List Nat) (ttl : Nat)
    (b : BytePacketBuffer) (n : Nat) (b2 : BytePacketBuffer)
    (h : dnsRecordWrite { type := .CNAME, domain := dom, host := host, ttl := ttl } b
      = .ok (n, b2)) :
    b2.buf (b.pos + qnameWireLen dom + 8) * 256 +
      b2.buf (b.pos + qnameWireLen dom + 8 + 1) = qnameWireLen host := by
  simp only [dnsRecordWrite] at h
  split at h
  · exact Except.noConfusion h
  next b1 hq1 =>
  split at h
  · exact Except.noConfusion h
  next c2 hw2 =>
  split at h
  · exact Except.noConfusion h
  next c3 hw3 =>
  split at h
  · exact Except.noConfusion h
  next c4 hw4 =>
  split at h
  · exact Except.noConfusion h
  next c5 hw5 =>
  split at h
  · exact Except.noConfusion h
  next c6 hq2 =>
  injection h with hpair
  injection hpair with hn hb2
  obtain ⟨e1, _⟩ := writeQName_pos hq1
  obtain ⟨e2, _⟩ := write2Byte_pos hw2
  obtain ⟨e3, _⟩ := write2Byte_pos hw3
  obtain ⟨e4, _⟩ := write4Byte_pos hw4
  obtain ⟨e5, _⟩ := write2Byte_pos hw5
  obtain ⟨e6, e6b⟩ := writeQName_pos hq2
  subst hb2
  have hp : b.pos + qnameWireLen dom + 8 = c4.pos := by omega
  rw [hp]
  simp only [set2Bytes, setByte]
  simp only [if_true]
  have hsz : c6.pos - (c4.pos + 2) = qnameWireLen host := by omega
  rw [hsz.symm]
  rw [Nat.shiftRight_eq_div_pow]
  norm_num
  omega

/-- C9. After DnsRecord.Write writes an NS or CNAME record, the 16-bit
value backpatched at the placeholder position, which lies 8 bytes past
the encoded owner name, equals exactly the number of bytes WriteQName
emits for the target host name, namely qnameWireLen of the host, which
every successful WriteQName run advances the cursor by; the value is
not a fixed constant, as the two sample hosts show. -/
theorem claim_C9_backpatch :
    (∀ (dom host : List Nat) (ttl : Nat) (b : BytePacketBuffer) (n : Nat)
        (b2 : BytePacketBuffer),
      dnsRecordWrite { type := .NS, domain := dom, host := host, ttl := ttl } b
          = .ok (n, b2) →
        b2.buf (b.pos + qnameWireLen dom + 8) * 256 +
          b2.buf (b.pos + qnameWireLen dom + 8 + 1) = qnameWireLen host) ∧
    (∀ (dom host : List Nat) (ttl : Nat) (b : BytePacketBuffer) (n : Nat)
        (b2 : BytePacketBuffer),
      dnsRecordWrite { type := .CNAME, domain := dom, host := host, ttl := ttl } b
          = .ok (n, b2) →
        b2.buf (b.pos + qnameWireLen dom + 8) * 256 +
          b2.buf (b.pos + qnameWireLen dom + 8 + 1) = qnameWireLen host) ∧
    (∀ (c c2 : BytePacketBuffer) (host : List Nat),
      writeQName c host = .ok c2 → c2.pos = c.pos + qnameWireLen host) ∧
    qnameWireLen (asciiBytes "ns1.example.com") = 19 ∧
    qnameWireLen (asciiBytes "ns1.io") = 9 := by
  refine ⟨dnsRecordWrite_ns_backpatch, dnsRecordWrite_cname_backpatch, ?_,
    by decide, by decide⟩
  intro c c2 host h
  exact (writeQName_pos h).1

/-- C9, witness instantiating the backpatch theorem at the NS record
c9Rec written into a fresh buffer: the placeholder at position 11
receives the 4 bytes the host name ab occupies on the wire. -/
theorem claim_C9_witness :
    c9Res.2.buf 11 * 256 + c9Res.2.buf 12 = 4 :=
  claim_C9_backpatch.1 (asciiBytes "a") (asciiBytes "ab") 0 freshBuffer
    c9Res.1 c9Res.2 rfl

end GoDns
